import Mathlib

/-!
Shallow embedding of the `AudioEngine` class of `locus-control`
(source: `src/unnamed/part_011`, third section, lines 446-821) together
with the data types it uses (`src/unnamed/part_000`).

JavaScript numbers are idealised as exact rationals (`ℚ`); the one place
the code takes a square root (`Math.sqrt` in `processMetrics`) is
idealised over the reals.  The registry `sources : Map<number,
ExtendedAudioSource>` is embedded as an association list with JS `Map`
semantics (insertion-order iteration, in-place update on an existing
key, append on a fresh key).  Host audio nodes (`GainNode`, …) are
represented by the values the engine writes to them: each channel
records the last gain target applied to its gain stage
(`gainNode.gain.setTargetAtTime`), the last monitor-gate target, and the
bus its gain stage output is connected to (`_connectedBus`, an
`Option`, mirroring the smart-routing back-reference of the source).
-/

/-- `crossfadeGroup` field: `'A' | 'B' | 'C'` (src/unnamed/part_000, `AudioSource`). -/
inductive CrossGroup where
  | A | B | C
deriving DecidableEq

/-- `type` field of a source: `'screen' | 'mic'`. -/
inductive SrcType where
  | screen | mic
deriving DecidableEq

/-- The three buses a channel's gain stage can be routed to by `updateMix`:
`busA`, `busB` or `masterBus`.  (The monitor bus is reached through the
separate `monitorGateNode` edge, not through `_connectedBus`.) -/
inductive Bus where
  | busA | busB | master
deriving DecidableEq

/-- `filterType` of `FxState`: `'lowpass' | 'highpass' | 'allpass'`. -/
inductive FilterType where
  | lowpass | highpass | allpass
deriving DecidableEq

/-- One entry of `sources : Map<number, ExtendedAudioSource>`.  Host-node
handles (`stream`, `sourceNode`, `analyserNode`) carry no engine state and
are omitted; `gainTarget` / `monitorGateTarget` record the values the
engine last applied to `gainNode.gain` / `monitorGateNode.gain`, and
`connectedBus` is the `_connectedBus` back-reference. -/
structure Channel where
  volume : ℚ
  muted : Bool
  solo : Bool
  monitoring : Bool
  active : Bool
  srcType : SrcType
  crossfadeGroup : CrossGroup
  connectedBus : Option Bus
  gainTarget : ℚ
  monitorGateTarget : ℚ
deriving DecidableEq

/-- `SpectralBand` (src/unnamed/part_000). -/
structure SpectralBand where
  bass : ℚ
  mid : ℚ
  high : ℚ
deriving DecidableEq

/-- `VisualData` (src/unnamed/part_000): the shared telemetry record.
`peakLevels : Record<number, number>` is embedded as a total function
with default `0` (the code reads it as `peakLevels[s.id] || 0`). -/
structure VisualData where
  bass : ℚ
  mid : ℚ
  high : ℚ
  hue : ℚ
  raw : List ℕ
  peakLevels : ℕ → ℝ
  groupA : SpectralBand
  groupB : SpectralBand

/-- `FxState` (src/unnamed/part_000). -/
structure FxState where
  filterType : FilterType
  filterFreq : ℚ
  filterRes : ℚ
  distortionAmount : ℚ
  delayTime : ℚ
  delayFeedback : ℚ
  delayWet : ℚ
deriving DecidableEq

/-- `AudioContext.state`. -/
inductive CtxState where
  | suspended | running | closed
deriving DecidableEq

/-- Engine state: the registry, the two scalar controls `_crossfader` and
`_masterVolume`, the gain targets last applied to `masterBus.gain` and
`monitorBus.gain`, the applied FX-parameter targets, the installed
distortion curve (`WaveShaperNode.curve`, `none` = the null curve), and
the shared `visualData` record. -/
@[ext] structure Engine where
  sources : List (ℕ × Channel)
  crossfader : ℚ
  masterVolume : ℚ
  masterGainTarget : ℚ
  monitorGainTarget : ℚ
  filterType : FilterType
  filterFreq : ℚ
  filterQ : ℚ
  delayTime : ℚ
  delayFeedback : ℚ
  delayWet : ℚ
  distortionCurve : Option (List ℚ)
  visualData : VisualData

/-! ### JS `Map` semantics on the association list -/

/-- `Map.get`. -/
def mapGet (m : List (ℕ × Channel)) (id : ℕ) : Option Channel :=
  match m with
  | [] => none
  | (k, c) :: t => if k = id then some c else mapGet t id

/-- `Map.set`: update in place when the key is present (keeping insertion
order), append otherwise. -/
def mapSet (m : List (ℕ × Channel)) (id : ℕ) (c : Channel) : List (ℕ × Channel) :=
  match m with
  | [] => [(id, c)]
  | (k, c') :: t => if k = id then (k, c) :: t else (k, c') :: mapSet t id c

/-- `Map.delete`. -/
def mapDelete (m : List (ℕ × Channel)) (id : ℕ) : List (ℕ × Channel) :=
  m.filter (fun p => p.1 != id)

/-! ### `updateMix` (src/unnamed/part_011 lines 697-744) -/

/-- `targetBus` selection in `updateMix`: `busA` for group `'A'`, `busB`
for `'B'`, else `masterBus`. -/
def busFor (g : CrossGroup) : Bus :=
  match g with
  | .A => .busA
  | .B => .busB
  | .C => .master

/-- `crossfadeGain` in `updateMix`: starts at `1.0`; group `'A'` with
`_crossfader > 0` gives `1 - _crossfader`; group `'B'` with
`_crossfader < 0` gives `1 + _crossfader`. -/
def compGain (xf : ℚ) (g : CrossGroup) : ℚ :=
  match g with
  | .A => if 0 < xf then 1 - xf else 1
  | .B => if xf < 0 then 1 + xf else 1
  | .C => 1

/-- The gain value `updateMix` passes to `setTargetAtTime`: values below
`0.001` are replaced by `0`. -/
def snapGain (g : ℚ) : ℚ :=
  if g < 1 / 1000 then 0 else g

/-- The per-channel body of the `updateMix` loop: computes `targetGain`
(`volume`, zeroed by `muted` and by `anySolo && !solo`, multiplied by the
crossfade compensation), routes the gain stage to the target bus and
applies the gain and monitor-gate targets. -/
def mixChannel (anySolo : Bool) (xf : ℚ) (ch : Channel) : Channel :=
  let g0 := ch.volume
  let g1 := if ch.muted then 0 else g0
  let g2 := if anySolo && !ch.solo then 0 else g1
  let targetGain := g2 * compGain xf ch.crossfadeGroup
  { ch with
    connectedBus := some (busFor ch.crossfadeGroup)
    gainTarget := snapGain targetGain
    monitorGateTarget := if ch.monitoring then 1 else 0 }

/-- A graph operation performed by the smart-routing block of `updateMix`. -/
inductive RouteEvent where
  | disconnectBus (id : ℕ) (b : Bus)
  | disconnectAll (id : ℕ)
  | connect (id : ℕ) (b : Bus)
deriving DecidableEq

/-- The disconnect/connect operations `updateMix` performs for one channel:
nothing when `_connectedBus` already equals the target bus, otherwise a
disconnect (from the recorded bus, or of everything when the
back-reference is unset) followed by a connect. -/
def chanEvents (id : ℕ) (ch : Channel) : List RouteEvent :=
  let target := busFor ch.crossfadeGroup
  if ch.connectedBus = some target then []
  else
    (match ch.connectedBus with
     | some b => [RouteEvent.disconnectBus id b]
     | none => [RouteEvent.disconnectAll id]) ++ [RouteEvent.connect id target]

/-- `updateMix`, instrumented with the list of graph operations it
performs.  `anySolo` is computed over all sources first, then each channel
is routed and its gain/monitor targets applied. -/
def updateMixEv (e : Engine) : Engine × List RouteEvent :=
  let anySolo := e.sources.any (fun p => p.2.solo)
  ({ e with sources := e.sources.map (fun p => (p.1, mixChannel anySolo e.crossfader p.2)) },
   (e.sources.map (fun p => chanEvents p.1 p.2)).flatten)

/-- `updateMix` (state part). -/
def updateMix (e : Engine) : Engine :=
  (updateMixEv e).1

/-! ### Public mutating operations (src/unnamed/part_011 lines 618-695) -/

/-- The statements of the `try` block of `removeSource`, in source order. -/
inductive TeardownStep where
  | gainDisc | sourceDisc | monitorDisc | streamStop
deriving DecidableEq

/-- Which side effects a `removeSource` call achieved. -/
structure TeardownResult where
  gainDisconnected : Bool
  sourceDisconnected : Bool
  monitorDisconnected : Bool
  streamStopped : Bool
  removedFromRegistry : Bool
deriving DecidableEq

/-- `removeSource`, with a fault oracle `throws` saying which statements
of the `try` block raise.  The first raising statement aborts the rest of
the block (the `catch` only logs), and `sources.delete(id)` runs
regardless. -/
def removeSourceRun (e : Engine) (id : ℕ) (throws : TeardownStep → Bool) :
    Engine × TeardownResult :=
  match mapGet e.sources id with
  | none => (e, ⟨false, false, false, false, false⟩)
  | some _ =>
    let gainOk := !throws .gainDisc
    let sourceOk := gainOk && !throws .sourceDisc
    let monitorOk := sourceOk && !throws .monitorDisc
    let streamOk := monitorOk && !throws .streamStop
    ({ e with sources := mapDelete e.sources id },
     ⟨gainOk, sourceOk, monitorOk, streamOk, true⟩)

/-- `removeSource` on the fault-free path. -/
def removeSource (e : Engine) (id : ℕ) : Engine :=
  (removeSourceRun e id (fun _ => false)).1

/-- `setSourceVolume`: clamp to `[0, 2]`, store, recompute the mix.
Absent id: no-op. -/
def setSourceVolume (e : Engine) (id : ℕ) (val : ℚ) : Engine :=
  match mapGet e.sources id with
  | none => e
  | some s => updateMix { e with sources := mapSet e.sources id { s with volume := min 2 (max 0 val) } }

/-- `setMute`. -/
def setMute (e : Engine) (id : ℕ) (muted : Bool) : Engine :=
  match mapGet e.sources id with
  | none => e
  | some s => updateMix { e with sources := mapSet e.sources id { s with muted := muted } }

/-- `setSolo`. -/
def setSolo (e : Engine) (id : ℕ) (solo : Bool) : Engine :=
  match mapGet e.sources id with
  | none => e
  | some s => updateMix { e with sources := mapSet e.sources id { s with solo := solo } }

/-- `setMonitoring`. -/
def setMonitoring (e : Engine) (id : ℕ) (monitoring : Bool) : Engine :=
  match mapGet e.sources id with
  | none => e
  | some s => updateMix { e with sources := mapSet e.sources id { s with monitoring := monitoring } }

/-- `setCrossfade` (per-channel group assignment). -/
def setCrossfade (e : Engine) (id : ℕ) (g : CrossGroup) : Engine :=
  match mapGet e.sources id with
  | none => e
  | some s => updateMix { e with sources := mapSet e.sources id { s with crossfadeGroup := g } }

/-- `setCrossfader`: clamp to `[-1, 1]` and recompute the mix. -/
def setCrossfader (e : Engine) (val : ℚ) : Engine :=
  updateMix { e with crossfader := max (-1) (min 1 val) }

/-- `setMasterVolume`: clamp to `[0, 2]` and ramp `masterBus.gain`. -/
def setMasterVolume (e : Engine) (val : ℚ) : Engine :=
  { e with masterVolume := max 0 (min 2 val), masterGainTarget := max 0 (min 2 val) }

/-- `setMonitorEnabled`. -/
def setMonitorEnabled (e : Engine) (enabled : Bool) : Engine :=
  { e with monitorGainTarget := if enabled then 1 else 0 }

/-- `Math.PI` as the exact rational value of the IEEE-754 double. -/
def jsPI : ℚ := 884279719003555 / 281474976710656

/-- `makeDistortionCurve` (lines 561-571): 256 samples of
`((3 + k) * x * 20 * deg) / (PI + k * abs x)` with `k = max 0 amount`,
`deg = PI / 180`, `x = i * 2 / 256 - 1`. -/
def makeDistortionCurve (amount : ℚ) : List ℚ :=
  let k := max 0 amount
  let deg := jsPI / 180
  (List.range 256).map (fun i =>
    let x := ((i : ℚ) * 2) / 256 - 1
    ((3 + k) * x * 20 * deg) / (jsPI + k * |x|))

/-- `updateFx` (lines 678-695): clamp and apply the filter and delay
parameters; install a distortion curve only when `distortionAmount > 0`
and no curve (or only the length-2 legacy curve) is currently installed,
and clear it when `distortionAmount` is not positive. -/
def updateFx (e : Engine) (state : FxState) : Engine :=
  { e with
    filterType := state.filterType
    filterFreq := min 20000 (max 20 state.filterFreq)
    filterQ := min 20 (max 0 state.filterRes)
    delayTime := min 4 (max 0 state.delayTime)
    delayFeedback := min (19/20) (max 0 state.delayFeedback)
    delayWet := min 1 (max 0 state.delayWet)
    distortionCurve :=
      if 0 < state.distortionAmount then
        match e.distortionCurve with
        | none => some (makeDistortionCurve state.distortionAmount)
        | some c => if c.length = 2 then some (makeDistortionCurve state.distortionAmount) else some c
      else none }

/-- `addSource` (lines 579-616), registry/state part: tear down any
occupant of the slot, insert a channel with `volume = 0.8`
(`gainNode.gain.value = 0.8`), monitor gate open only for `'screen'`,
group `'C'`, unset `_connectedBus`, then `updateMix`. -/
def addSource (e : Engine) (slotId : ℕ) (ty : SrcType) : Engine :=
  let e1 := if (mapGet e.sources slotId).isSome then removeSource e slotId else e
  let ch : Channel :=
    { volume := 4/5
      muted := false
      solo := false
      monitoring := ty = SrcType.screen
      active := true
      srcType := ty
      crossfadeGroup := .C
      connectedBus := none
      gainTarget := 4/5
      monitorGateTarget := if ty = SrcType.screen then 1 else 0 }
  updateMix { e1 with sources := mapSet e1.sources slotId ch }

/-! ### Operation language over the public mutating API -/

/-- One public mutating call on the engine. -/
inductive Op where
  | addSource (slotId : ℕ) (ty : SrcType)
  | removeSource (id : ℕ)
  | setSourceVolume (id : ℕ) (v : ℚ)
  | setMute (id : ℕ) (b : Bool)
  | setSolo (id : ℕ) (b : Bool)
  | setMonitoring (id : ℕ) (b : Bool)
  | setCrossfade (id : ℕ) (g : CrossGroup)
  | setCrossfader (v : ℚ)
  | setMasterVolume (v : ℚ)
  | setMonitorEnabled (b : Bool)
  | updateFx (fx : FxState)

/-- Execute one call. -/
def applyOp (e : Engine) : Op → Engine
  | .addSource slotId ty => addSource e slotId ty
  | .removeSource id => removeSource e id
  | .setSourceVolume id v => setSourceVolume e id v
  | .setMute id b => setMute e id b
  | .setSolo id b => setSolo e id b
  | .setMonitoring id b => setMonitoring e id b
  | .setCrossfade id g => setCrossfade e id g
  | .setCrossfader v => setCrossfader e v
  | .setMasterVolume v => setMasterVolume e v
  | .setMonitorEnabled b => setMonitorEnabled e b
  | .updateFx fx => updateFx e fx

/-- Execute a call sequence, oldest first. -/
def applyOps (ops : List Op) (e : Engine) : Engine :=
  ops.foldl applyOp e

/-- The shared telemetry record as created by the UI layer
(src/unnamed/part_014 line 75: `peakLevels: {}` etc.). -/
def initVisualData : VisualData :=
  { bass := 0, mid := 0, high := 0, hue := 0, raw := []
    peakLevels := fun _ => 0
    groupA := ⟨0, 0, 0⟩, groupB := ⟨0, 0, 0⟩ }

/-- Engine state right after the constructor (lines 496-559): empty
registry, `_crossfader = 0`, `_masterVolume = 1`, default bus gains `1`,
`filter.frequency = 20000`, default `Q = 1`, `delayWet = 0`, default
delay feedback gain `1`, no distortion curve. -/
def initEngine : Engine :=
  { sources := []
    crossfader := 0
    masterVolume := 1
    masterGainTarget := 1
    monitorGainTarget := 1
    filterType := .lowpass
    filterFreq := 20000
    filterQ := 1
    delayTime := 0
    delayFeedback := 1
    delayWet := 0
    distortionCurve := none
    visualData := initVisualData }

/-! ### Metrics pipeline (src/unnamed/part_011 lines 746-815) -/

/-- `updateBandEnergy` (lines 746-764), returning the band triple it
writes into `target`.  `bBins = Math.floor(len * 0.06)` and
`mBins = Math.floor(len * 0.35)` are embedded as the exact rational
floors `len * 6 / 100` and `len * 35 / 100`; each band is the bin sum
divided by `Math.max(1, bins)` and scaled by `INV_255 = 1 / 255`.  The
inline master-band computation of `processMetrics` (lines 772-785) is
the same code with the same constants, so it reuses this definition;
for `len = 0` the inline loops also produce `(0, 0, 0)`. -/
def updateBandEnergy (data : List ℕ) : SpectralBand :=
  let len := data.length
  if len = 0 then ⟨0, 0, 0⟩
  else
    let bBins := len * 6 / 100
    let mBins := len * 35 / 100
    let b : ℚ := ((data.take bBins).sum : ℕ)
    let m : ℚ := (((data.drop bBins).take mBins).sum : ℕ)
    let h : ℚ := ((data.drop (bBins + mBins)).sum : ℕ)
    ⟨b / (max 1 (bBins : ℚ)) * (1/255),
     m / (max 1 (mBins : ℚ)) * (1/255),
     h / (max 1 ((len - bBins - mBins : ℕ) : ℚ)) * (1/255)⟩

/-- JS `x % 360` for the hue update (`x` is nonnegative there, where `%`
agrees with the floor-based remainder). -/
def jsMod360 (x : ℚ) : ℚ :=
  x - 360 * (⌊x / 360⌋ : ℚ)

/-- `(this._rmsBuffer[i] - 128) * this.INV_128`. -/
def sampleVal (b : ℕ) : ℚ :=
  ((b : ℚ) - 128) * (1/128)

/-- The accumulator of the unrolled RMS loop (lines 803-809): blocks of
four squared normalised samples, `i = 0, 4, ..., 252`. -/
def rmsAcc (buf : ℕ → ℕ) : ℚ :=
  (List.range 64).foldl
    (fun acc j =>
      let v1 := sampleVal (buf (4*j))
      let v2 := sampleVal (buf (4*j + 1))
      let v3 := sampleVal (buf (4*j + 2))
      let v4 := sampleVal (buf (4*j + 3))
      acc + (v1*v1 + v2*v2 + v3*v3 + v4*v4)) 0

/-- `Math.sqrt(acc * RMS_WEIGHT) * 5.0` with `RMS_WEIGHT = 1/256`
(line 810), idealised over the reals. -/
noncomputable def rawPeak (buf : ℕ → ℕ) : ℝ :=
  Real.sqrt ((rmsAcc buf : ℝ) * (1/256)) * 5

/-- Environment read by one `processMetrics` tick: the audio-context
state and the data the analyser probes would deliver
(`getByteFrequencyData` / `getByteTimeDomainData`). -/
structure MetricsEnv where
  ctxState : CtxState
  masterSpectrum : List ℕ
  spectrumA : List ℕ
  spectrumB : List ℕ
  timeDomain : ℕ → ℕ → ℕ

/-- The peak-metrics loop (lines 798-814): for each active source,
`peakLevels[s.id] = Math.max(peak, prev * 0.90)` with
`prev = peakLevels[s.id] || 0`. -/
noncomputable def peakPass (env : MetricsEnv) (sources : List (ℕ × Channel))
    (old : ℕ → ℝ) : ℕ → ℝ :=
  sources.foldl
    (fun acc p =>
      if p.2.active then
        Function.update acc p.1 (max (rawPeak (env.timeDomain p.1)) (acc p.1 * (9/10)))
      else acc) old

/-- `processMetrics` (lines 766-815): early return unless the context is
`'running'`; otherwise write the master spectrum and its band split, the
group band splits, the hue advance `(hue + 0.15 + bass * 2.5) % 360`,
and the decayed per-channel peaks into `visualData`. -/
noncomputable def processMetrics (env : MetricsEnv) (e : Engine) : Engine :=
  if env.ctxState ≠ CtxState.running then e
  else
    let master := updateBandEnergy env.masterSpectrum
    let gA := updateBandEnergy env.spectrumA
    let gB := updateBandEnergy env.spectrumB
    { e with visualData :=
      { e.visualData with
        raw := env.masterSpectrum
        bass := master.bass
        mid := master.mid
        high := master.high
        hue := jsMod360 (e.visualData.hue + 3/20 + master.bass * (5/2))
        groupA := gA
        groupB := gB
        peakLevels := peakPass env e.sources e.visualData.peakLevels } }

/-! ### Spec-side definitions and invariants -/

/-- The per-channel gain predicted by the specification sentence behind
C1, stated from the spec words (to be compared with what `updateMix`
applies): `0` if muted, else `0` if some **other** channel is soloed and
this one is not, else the stored volume clamped to `[0, 2]` times the
crossfade compensation. -/
def specGain (e : Engine) (id : ℕ) (ch : Channel) : ℚ :=
  if ch.muted then 0
  else if (e.sources.any (fun p => p.1 != id && p.2.solo)) && !ch.solo then 0
  else min 2 (max 0 ch.volume) * compGain e.crossfader ch.crossfadeGroup

/-- Registry keys, in insertion order. -/
def mapKeys (m : List (ℕ × Channel)) : List ℕ :=
  m.map Prod.fst

/-- Mix consistency: unique registry keys, stored volumes in `[0, 2]`,
and every channel's applied gain target equal to the (snapped) spec
formula evaluated at the current state.  This holds in every state an
engine run can reach between calls, and is what the C1 theorem
propagates through call sequences. -/
@[reducible] def MixInv (e : Engine) : Prop :=
  (mapKeys e.sources).Nodup ∧
    ∀ p ∈ e.sources, (0 ≤ p.2.volume ∧ p.2.volume ≤ 2) ∧
      p.2.gainTarget = snapGain (specGain e p.1 p.2)

/-- Routing invariant (C2): every channel's gain stage is connected to
exactly the bus determined by its crossfade group. -/
@[reducible] def RouteInv (e : Engine) : Prop :=
  ∀ p ∈ e.sources, p.2.connectedBus = some (busFor p.2.crossfadeGroup)

/-- The four calls quantified over in C1. -/
def isMixSetter : Op → Bool
  | .setSourceVolume _ _ => true
  | .setMute _ _ => true
  | .setSolo _ _ => true
  | .setCrossfader _ => true
  | _ => false

/-! ### Basic lemmas about the embedded operations -/

theorem mixChannel_volume (a : Bool) (xf : ℚ) (ch : Channel) :
    (mixChannel a xf ch).volume = ch.volume := rfl

theorem mixChannel_muted (a : Bool) (xf : ℚ) (ch : Channel) :
    (mixChannel a xf ch).muted = ch.muted := rfl

theorem mixChannel_solo (a : Bool) (xf : ℚ) (ch : Channel) :
    (mixChannel a xf ch).solo = ch.solo := rfl

theorem mixChannel_crossfadeGroup (a : Bool) (xf : ℚ) (ch : Channel) :
    (mixChannel a xf ch).crossfadeGroup = ch.crossfadeGroup := rfl

theorem mixChannel_connectedBus (a : Bool) (xf : ℚ) (ch : Channel) :
    (mixChannel a xf ch).connectedBus = some (busFor ch.crossfadeGroup) := rfl

theorem mixChannel_gainTarget (a : Bool) (xf : ℚ) (ch : Channel) :
    (mixChannel a xf ch).gainTarget =
      snapGain ((if a && !ch.solo then 0 else if ch.muted then 0 else ch.volume) *
        compGain xf ch.crossfadeGroup) := rfl

theorem mapKeys_nil : mapKeys [] = [] := rfl

theorem mapKeys_cons (p : ℕ × Channel) (t : List (ℕ × Channel)) :
    mapKeys (p :: t) = p.1 :: mapKeys t := rfl

theorem mem_mapKeys_of_mem {m : List (ℕ × Channel)} {p : ℕ × Channel} (h : p ∈ m) :
    p.1 ∈ mapKeys m :=
  List.mem_map_of_mem Prod.fst h

theorem mapGet_mem {m : List (ℕ × Channel)} {id : ℕ} {c : Channel}
    (h : mapGet m id = some c) : (id, c) ∈ m := by
  induction m with
  | nil => simp [mapGet] at h
  | cons p t ih =>
    obtain ⟨k, c'⟩ := p
    rw [mapGet] at h
    split at h
    · next hk => cases h; exact hk ▸ List.mem_cons_self _ _
    · exact List.mem_cons_of_mem _ (ih h)

theorem mapGet_map (f : Channel → Channel) (m : List (ℕ × Channel)) (id : ℕ) :
    mapGet (m.map (fun p => (p.1, f p.2))) id = (mapGet m id).map f := by
  induction m with
  | nil => rfl
  | cons p t ih =>
    obtain ⟨k, c'⟩ := p
    by_cases hk : k = id <;> simp [mapGet, hk, ih]

theorem mapGet_mapSet_self (m : List (ℕ × Channel)) (id : ℕ) (c : Channel) :
    mapGet (mapSet m id c) id = some c := by
  induction m with
  | nil => simp [mapSet, mapGet]
  | cons p t ih =>
    obtain ⟨k, c'⟩ := p
    by_cases hk : k = id <;> simp [mapSet, mapGet, hk, ih]

theorem mem_mapSet {m : List (ℕ × Channel)} {id : ℕ} {c : Channel} {p : ℕ × Channel}
    (h : p ∈ mapSet m id c) : p = (id, c) ∨ p ∈ m := by
  induction m with
  | nil => simp [mapSet] at h; simp [h]
  | cons q t ih =>
    obtain ⟨k, c'⟩ := q
    rw [mapSet] at h
    split at h
    · next hk =>
      rcases List.mem_cons.mp h with h1 | h1
      · left; rw [h1, hk]
      · right; exact List.mem_cons_of_mem _ h1
    · rcases List.mem_cons.mp h with h1 | h1
      · right; rw [h1]; exact List.mem_cons_self _ _
      · rcases ih h1 with h2 | h2
        · left; exact h2
        · right; exact List.mem_cons_of_mem _ h2

theorem mapKeys_mapSet (m : List (ℕ × Channel)) (id : ℕ) (c : Channel) :
    mapKeys (mapSet m id c) =
      if id ∈ mapKeys m then mapKeys m else mapKeys m ++ [id] := by
  induction m with
  | nil => simp [mapSet, mapKeys]
  | cons p t ih =>
    obtain ⟨k, c'⟩ := p
    by_cases hk : k = id
    · simp [mapSet, hk, mapKeys_cons, List.mem_cons]
    · have : (id ∈ mapKeys ((k, c') :: t)) = (id ∈ mapKeys t) := by
        simp [mapKeys_cons, List.mem_cons, Ne.symm hk]
      by_cases hmem : id ∈ mapKeys t <;>
        simp [mapSet, hk, mapKeys_cons, ih, hmem, Ne.symm hk]

theorem nodup_mapKeys_mapSet {m : List (ℕ × Channel)} {id : ℕ} {c : Channel}
    (h : (mapKeys m).Nodup) : (mapKeys (mapSet m id c)).Nodup := by
  rw [mapKeys_mapSet]
  split
  · exact h
  · next hno => simp [List.nodup_append, h, hno]

theorem nodup_keys_eq {m : List (ℕ × Channel)} {id : ℕ} {a b : Channel}
    (hnd : (mapKeys m).Nodup) (h1 : (id, a) ∈ m) (h2 : (id, b) ∈ m) : a = b := by
  induction m with
  | nil => simp at h1
  | cons p t ih =>
    rw [mapKeys_cons, List.nodup_cons] at hnd
    rcases List.mem_cons.mp h1 with e1 | e1 <;> rcases List.mem_cons.mp h2 with e2 | e2
    · exact congrArg Prod.snd (e1.trans e2.symm)
    · exfalso
      have hid : id ∈ mapKeys t := mem_mapKeys_of_mem e2
      exact hnd.1 (by rw [← e1]; exact hid)
    · exfalso
      have hid : id ∈ mapKeys t := mem_mapKeys_of_mem e1
      exact hnd.1 (by rw [← e2]; exact hid)
    · exact ih hnd.2 e1 e2

theorem anySolo_eq_otherSolo {m : List (ℕ × Channel)} {id : ℕ} {ch : Channel}
    (hnd : (mapKeys m).Nodup) (hmem : (id, ch) ∈ m) (hns : ch.solo = false) :
    (m.any fun p => p.2.solo) = (m.any fun p => p.1 != id && p.2.solo) := by
  rw [Bool.eq_iff_iff]
  simp only [List.any_eq_true]
  constructor
  · rintro ⟨x, hx, hsolo⟩
    by_cases hid : x.1 = id
    · exfalso
      have hx' : (id, x.2) ∈ m := by
        have := hx
        rw [show x = (x.1, x.2) from rfl, hid] at this
        exact this
      have := nodup_keys_eq hnd hx' hmem
      rw [this, hns] at hsolo
      exact Bool.false_ne_true hsolo
    · exact ⟨x, hx, by simp [bne_iff_ne, hid, hsolo]⟩
  · rintro ⟨x, hx, hsolo⟩
    exact ⟨x, hx, (Bool.and_elim_right hsolo)⟩

theorem mapKeys_map (f : Channel → Channel) (m : List (ℕ × Channel)) :
    mapKeys (m.map (fun p => (p.1, f p.2))) = mapKeys m := by
  simp [mapKeys, List.map_map, Function.comp]

theorem updateMix_sources (e : Engine) :
    (updateMix e).sources =
      e.sources.map
        (fun p => (p.1, mixChannel (e.sources.any fun q => q.2.solo) e.crossfader p.2)) := rfl

theorem updateMix_crossfader (e : Engine) : (updateMix e).crossfader = e.crossfader := rfl

/-! ### Routing invariant lemmas (towards C2) -/

theorem routeInv_updateMix (e : Engine) : RouteInv (updateMix e) := by
  intro p hp
  rw [updateMix_sources] at hp
  obtain ⟨q, _, rfl⟩ := List.mem_map.mp hp
  rfl

theorem sources_setMasterVolume (e : Engine) (v : ℚ) :
    (setMasterVolume e v).sources = e.sources := rfl

theorem sources_setMonitorEnabled (e : Engine) (b : Bool) :
    (setMonitorEnabled e b).sources = e.sources := rfl

theorem sources_updateFx (e : Engine) (fx : FxState) :
    (updateFx e fx).sources = e.sources := rfl

theorem sources_removeSource (e : Engine) (id : ℕ) :
    (removeSource e id).sources = e.sources ∨
      (removeSource e id).sources = mapDelete e.sources id := by
  rw [removeSource, removeSourceRun]
  cases mapGet e.sources id with
  | none => exact Or.inl rfl
  | some s => exact Or.inr rfl

theorem mem_mapDelete {m : List (ℕ × Channel)} {id : ℕ} {p : ℕ × Channel}
    (h : p ∈ mapDelete m id) : p ∈ m :=
  (List.mem_filter.mp h).1

theorem routeInv_applyOp {e : Engine} (o : Op) (h : RouteInv e) : RouteInv (applyOp e o) := by
  cases o with
  | addSource slotId ty => exact routeInv_updateMix _
  | removeSource id =>
    show RouteInv (removeSource e id)
    rcases sources_removeSource e id with hs | hs <;> intro p hp <;> rw [hs] at hp
    · exact h p hp
    · exact h p (mem_mapDelete hp)
  | setSourceVolume id v =>
    rw [applyOp, setSourceVolume]
    cases mapGet e.sources id with
    | none => exact h
    | some s => exact routeInv_updateMix _
  | setMute id b =>
    rw [applyOp, setMute]
    cases mapGet e.sources id with
    | none => exact h
    | some s => exact routeInv_updateMix _
  | setSolo id b =>
    rw [applyOp, setSolo]
    cases mapGet e.sources id with
    | none => exact h
    | some s => exact routeInv_updateMix _
  | setMonitoring id b =>
    rw [applyOp, setMonitoring]
    cases mapGet e.sources id with
    | none => exact h
    | some s => exact routeInv_updateMix _
  | setCrossfade id g =>
    rw [applyOp, setCrossfade]
    cases mapGet e.sources id with
    | none => exact h
    | some s => exact routeInv_updateMix _
  | setCrossfader v => exact routeInv_updateMix _
  | setMasterVolume v => intro p hp; exact h p hp
  | setMonitorEnabled b => intro p hp; exact h p hp
  | updateFx fx => intro p hp; exact h p hp

theorem routeInv_applyOps {e : Engine} (ops : List Op) (h : RouteInv e) :
    RouteInv (applyOps ops e) := by
  induction ops generalizing e with
  | nil => exact h
  | cons o t ih => exact ih (routeInv_applyOp o h)

theorem chanEvents_nil_of_connected {id : ℕ} {ch : Channel}
    (h : ch.connectedBus = some (busFor ch.crossfadeGroup)) : chanEvents id ch = [] := by
  rw [chanEvents]
  simp [h]

theorem events_nil_of_routeInv {e : Engine} (h : RouteInv e) : (updateMixEv e).2 = [] := by
  show (e.sources.map fun p => chanEvents p.1 p.2).flatten = []
  have : ∀ l : List (ℕ × Channel),
      (∀ p ∈ l, p.2.connectedBus = some (busFor p.2.crossfadeGroup)) →
      (l.map fun p => chanEvents p.1 p.2).flatten = [] := by
    intro l hl
    induction l with
    | nil => rfl
    | cons p t ih =>
      rw [List.map_cons, List.flatten_cons,
        chanEvents_nil_of_connected (hl p (List.mem_cons_self _ _)), List.nil_append]
      exact ih (fun q hq => hl q (List.mem_cons_of_mem _ hq))
  exact this e.sources h

/-! ### Mix-consistency lemmas (towards C1) -/

theorem otherSolo_updateMix (e : Engine) (id : ℕ) :
    ((updateMix e).sources.any fun p => p.1 != id && p.2.solo) =
      (e.sources.any fun p => p.1 != id && p.2.solo) := by
  rw [updateMix_sources, List.any_map]
  rfl

theorem mixInv_updateMix (e : Engine) (hnd : (mapKeys e.sources).Nodup)
    (hvol : ∀ p ∈ e.sources, 0 ≤ p.2.volume ∧ p.2.volume ≤ 2) :
    MixInv (updateMix e) := by
  constructor
  · rw [updateMix_sources, mapKeys_map]
    exact hnd
  · intro p hp
    rw [updateMix_sources] at hp
    obtain ⟨q, hq, rfl⟩ := List.mem_map.mp hp
    obtain ⟨hv0, hv2⟩ := hvol q hq
    refine ⟨⟨by rw [mixChannel_volume]; exact hv0, by rw [mixChannel_volume]; exact hv2⟩, ?_⟩
    rw [mixChannel_gainTarget, specGain]
    rw [show ((q.1, mixChannel (e.sources.any fun q => q.2.solo) e.crossfader q.2) :
        ℕ × Channel).2 = mixChannel (e.sources.any fun q => q.2.solo) e.crossfader q.2 from rfl]
    rw [mixChannel_muted, mixChannel_solo, mixChannel_volume, mixChannel_crossfadeGroup]
    rw [show ((q.1, mixChannel (e.sources.any fun q => q.2.solo) e.crossfader q.2) :
        ℕ × Channel).1 = q.1 from rfl]
    rw [otherSolo_updateMix, updateMix_crossfader]
    have hclamp : min 2 (max 0 q.2.volume) = q.2.volume := by
      rw [max_eq_right hv0, min_eq_right hv2]
    by_cases hm : q.2.muted
    · simp [hm]
    · by_cases hs : q.2.solo
      · simp [hm, hs, hclamp]
      · have hq2 : (q.1, q.2) ∈ e.sources := hq
        have hae := anySolo_eq_otherSolo hnd hq2 (Bool.not_eq_true _ ▸ hs)
        rw [← hae]
        by_cases ha : e.sources.any fun q => q.2.solo
        · simp [hm, hs, ha]
        · simp [hm, hs, ha, hclamp]

theorem mixInv_applyOp {e : Engine} {o : Op} (ho : isMixSetter o = true) (h : MixInv e) :
    MixInv (applyOp e o) := by
  obtain ⟨hnd, hprop⟩ := h
  cases o with
  | setSourceVolume id v =>
    show MixInv (setSourceVolume e id v)
    rw [setSourceVolume]
    cases hg : mapGet e.sources id with
    | none => exact ⟨hnd, hprop⟩
    | some s =>
      apply mixInv_updateMix
      · exact nodup_mapKeys_mapSet hnd
      · intro p hp
        rcases mem_mapSet hp with rfl | hp'
        · constructor
          · exact le_min (by norm_num) (le_max_left 0 v)
          · exact min_le_left 2 _
        · exact (hprop p hp').1
  | setMute id b =>
    show MixInv (setMute e id b)
    rw [setMute]
    cases hg : mapGet e.sources id with
    | none => exact ⟨hnd, hprop⟩
    | some s =>
      apply mixInv_updateMix
      · exact nodup_mapKeys_mapSet hnd
      · intro p hp
        rcases mem_mapSet hp with rfl | hp'
        · exact (hprop (id, s) (mapGet_mem hg)).1
        · exact (hprop p hp').1
  | setSolo id b =>
    show MixInv (setSolo e id b)
    rw [setSolo]
    cases hg : mapGet e.sources id with
    | none => exact ⟨hnd, hprop⟩
    | some s =>
      apply mixInv_updateMix
      · exact nodup_mapKeys_mapSet hnd
      · intro p hp
        rcases mem_mapSet hp with rfl | hp'
        · exact (hprop (id, s) (mapGet_mem hg)).1
        · exact (hprop p hp').1
  | setCrossfader v =>
    show MixInv (setCrossfader e v)
    rw [setCrossfader]
    apply mixInv_updateMix
    · exact hnd
    · intro p hp
      exact (hprop p hp).1
  | addSource slotId ty => simp [isMixSetter] at ho
  | removeSource id => simp [isMixSetter] at ho
  | setMonitoring id b => simp [isMixSetter] at ho
  | setCrossfade id g => simp [isMixSetter] at ho
  | setMasterVolume v => simp [isMixSetter] at ho
  | setMonitorEnabled b => simp [isMixSetter] at ho
  | updateFx fx => simp [isMixSetter] at ho

theorem mixInv_applyOps {e : Engine} {ops : List Op}
    (hops : ∀ o ∈ ops, isMixSetter o = true) (h : MixInv e) : MixInv (applyOps ops e) := by
  induction ops generalizing e with
  | nil => exact h
  | cons o t ih =>
    exact ih (fun o' ho' => hops o' (List.mem_cons_of_mem _ ho'))
      (mixInv_applyOp (hops o (List.mem_cons_self _ _)) h)

/-! ### C1 -/

/-- C1, amended: for every channel in the registry, after any sequence of
`setMute`/`setSolo`/`setSourceVolume`/`setCrossfader` calls on a
mix-consistent engine, the gain value `updateMix` has applied to the
channel's gain stage is the spec formula (0 if muted, else 0 if some
other channel is soloed and this one is not, else the stored volume
clamped to [0,2] times the crossfade compensation) **passed through the
0.001 snap-to-silence threshold of `updateMix`** — independent of the
order of the calls, since the right-hand side reads only the final
state. -/
theorem C1_gain_formula (e₀ : Engine) (ops : List Op)
    (hops : ∀ o ∈ ops, isMixSetter o = true) (hinv : MixInv e₀)
    (id : ℕ) (ch : Channel)
    (hget : mapGet (applyOps ops e₀).sources id = some ch) :
    ch.gainTarget = snapGain (specGain (applyOps ops e₀) id ch) := by
  have h := mixInv_applyOps hops hinv
  exact (h.2 (id, ch) (mapGet_mem hget)).2

theorem C1_gain_formula_witness :
    (∀ o ∈ [Op.setSourceVolume 1 (1/2)], isMixSetter o = true) ∧
    MixInv (applyOps [Op.addSource 1 SrcType.mic] initEngine) ∧
    mapGet (applyOps [Op.setSourceVolume 1 (1/2)]
        (applyOps [Op.addSource 1 SrcType.mic] initEngine)).sources 1 =
      some (Channel.mk (1/2) false false false true SrcType.mic CrossGroup.C
        (some Bus.master) (1/2) 0) ∧
    (Channel.mk (1/2) false false false true SrcType.mic CrossGroup.C
        (some Bus.master) (1/2) 0).gainTarget =
      snapGain (specGain (applyOps [Op.setSourceVolume 1 (1/2)]
          (applyOps [Op.addSource 1 SrcType.mic] initEngine)) 1
        (Channel.mk (1/2) false false false true SrcType.mic CrossGroup.C
          (some Bus.master) (1/2) 0)) := by
  have hinv : MixInv (applyOps [Op.addSource 1 SrcType.mic] initEngine) := by
    norm_num [MixInv, applyOps, applyOp, addSource, initEngine, initVisualData, removeSource,
      removeSourceRun, mapGet, mapSet, mapKeys, updateMix, updateMixEv, mixChannel, snapGain,
      compGain, busFor, specGain]
  have hget : mapGet (applyOps [Op.setSourceVolume 1 (1/2)]
      (applyOps [Op.addSource 1 SrcType.mic] initEngine)).sources 1 =
      some (Channel.mk (1/2) false false false true SrcType.mic CrossGroup.C
        (some Bus.master) (1/2) 0) := by
    norm_num [applyOps, applyOp, addSource, setSourceVolume, initEngine, initVisualData,
      removeSource, removeSourceRun, mapGet, mapSet, updateMix, updateMixEv, mixChannel,
      snapGain, compGain, busFor]
    all_goals decide
  exact ⟨by decide, hinv, hget,
    C1_gain_formula (applyOps [Op.addSource 1 SrcType.mic] initEngine)
      [Op.setSourceVolume 1 (1/2)] (by decide) hinv 1 _ hget⟩

/-- C1's original sentence fails on the code: a stored volume of
`1/2000 = 0.0005` (unmuted, no solo, neutral group, so the claimed gain
is `0.0005 * 1 = 0.0005`) is applied as `0`, because `updateMix` snaps
every target gain below `0.001` to `0`. -/
theorem C1_counterexample :
    (mapGet (applyOps [Op.addSource 1 SrcType.mic, Op.setSourceVolume 1 (1/2000)]
        initEngine).sources 1).map Channel.gainTarget = some 0 ∧
    (mapGet (applyOps [Op.addSource 1 SrcType.mic, Op.setSourceVolume 1 (1/2000)]
        initEngine).sources 1).map
      (fun ch => specGain (applyOps [Op.addSource 1 SrcType.mic, Op.setSourceVolume 1 (1/2000)]
        initEngine) 1 ch) = some (1/2000) ∧
    (0 : ℚ) ≠ 1/2000 := by
  refine ⟨?_, ?_, by norm_num⟩ <;>
    norm_num [applyOps, applyOp, addSource, setSourceVolume, initEngine, initVisualData,
      removeSource, removeSourceRun, mapGet, mapSet, updateMix, updateMixEv, mixChannel,
      snapGain, compGain, busFor, specGain]

/-! ### C2 -/

/-- C2: starting from any engine satisfying the routing invariant (in
particular the freshly constructed engine, whose registry is empty),
after any sequence of public mutating operations every channel's gain
stage is connected to exactly one bus — `busA` for crossfade group `'A'`,
`busB` for `'B'`, the master bus otherwise — and invoking the mix
recomputation again on the resulting state performs no disconnect or
connect on any channel's edge. -/
theorem C2_routing_stability (e₀ : Engine) (ops : List Op) (h : RouteInv e₀) :
    RouteInv (applyOps ops e₀) ∧ (updateMixEv (applyOps ops e₀)).2 = [] := by
  have hfin := routeInv_applyOps ops h
  exact ⟨hfin, events_nil_of_routeInv hfin⟩

theorem C2_routing_stability_witness :
    RouteInv initEngine ∧
    (RouteInv (applyOps [Op.addSource 1 SrcType.mic, Op.setCrossfade 1 CrossGroup.A] initEngine) ∧
     (updateMixEv (applyOps [Op.addSource 1 SrcType.mic, Op.setCrossfade 1 CrossGroup.A]
        initEngine)).2 = []) :=
  ⟨by decide,
   C2_routing_stability initEngine [Op.addSource 1 SrcType.mic, Op.setCrossfade 1 CrossGroup.A]
     (by decide)⟩

/-! ### C8 -/

theorem mixChannel_mixChannel (a b : Bool) (xf xf' : ℚ) (ch : Channel) :
    mixChannel a xf (mixChannel b xf' ch) = mixChannel a xf ch := rfl

theorem anySolo_map_mixChannel (l : List (ℕ × Channel)) (a : Bool) (xf : ℚ) :
    ((l.map fun p => (p.1, mixChannel a xf p.2)).any fun q => q.2.solo) =
      (l.any fun q => q.2.solo) := by
  rw [List.any_map]
  rfl

theorem setCrossfader_updateMix_collapse (Z : Engine) (c : ℚ) :
    updateMix { updateMix Z with crossfader := c } = updateMix { Z with crossfader := c } := by
  have hs : (updateMix { updateMix Z with crossfader := c }).sources =
      (updateMix { Z with crossfader := c }).sources := by
    show ((updateMix Z).sources.map (fun p => (p.1,
        mixChannel ((updateMix Z).sources.any fun q => q.2.solo) c p.2))) =
      (Z.sources.map (fun p => (p.1, mixChannel (Z.sources.any fun q => q.2.solo) c p.2)))
    rw [show ((updateMix Z).sources.any fun q => q.2.solo) = (Z.sources.any fun q => q.2.solo) from by
      rw [updateMix_sources, List.any_map]
      rfl]
    rw [updateMix_sources, List.map_map]
    rfl
  exact Engine.ext hs rfl rfl rfl rfl rfl rfl rfl rfl rfl rfl rfl rfl

theorem setCrossfader_setCrossfader (E : Engine) (v2 v : ℚ) :
    setCrossfader (setCrossfader E v2) v = setCrossfader E v := by
  show updateMix { updateMix { E with crossfader := max (-1) (min 1 v2) } with
      crossfader := max (-1) (min 1 v) } = updateMix { E with crossfader := max (-1) (min 1 v) }
  rw [setCrossfader_updateMix_collapse]

/-- C8: setting the crossfader to `x`, then to `-x`, then back to `x`
leaves the engine in exactly the state produced by setting it to `x`
once — per-channel gains, routing and all other state included; the mix
computation reads only the current crossfader value and channel states. -/
theorem C8_crossfader_history_free (e : Engine) (x : ℚ) :
    setCrossfader (setCrossfader (setCrossfader e x) (-x)) x = setCrossfader e x := by
  rw [setCrossfader_setCrossfader, setCrossfader_setCrossfader]


/-! ### C3 -/

/-- C3, amended: after `updateFx`, if `distortionAmount = 0` the null
curve is installed (`curve = null`); if `distortionAmount > 0` a curve is
present — it is the curve built from **this call's** amount only when no
curve (or only the length-2 legacy curve) was installed beforehand, and
otherwise the previously installed curve is retained unchanged. -/
theorem C3_distortion_curve (e : Engine) (fx : FxState) :
    (0 < fx.distortionAmount →
      (updateFx e fx).distortionCurve =
        (match e.distortionCurve with
         | none => some (makeDistortionCurve fx.distortionAmount)
         | some c =>
           if c.length = 2 then some (makeDistortionCurve fx.distortionAmount)
           else some c)) ∧
    (fx.distortionAmount = 0 → (updateFx e fx).distortionCurve = none) ∧
    (0 < fx.distortionAmount → (updateFx e fx).distortionCurve ≠ none) := by
  have h1 : 0 < fx.distortionAmount →
      (updateFx e fx).distortionCurve =
        (match e.distortionCurve with
         | none => some (makeDistortionCurve fx.distortionAmount)
         | some c =>
           if c.length = 2 then some (makeDistortionCurve fx.distortionAmount)
           else some c) := by
    intro h
    show (if 0 < fx.distortionAmount then _ else none) = _
    rw [if_pos h]
  refine ⟨h1, fun h => ?_, fun h => ?_⟩
  · show (if 0 < fx.distortionAmount then _ else none) = none
    rw [if_neg (by rw [h]; exact lt_irrefl 0)]
  · rw [h1 h]
    cases e.distortionCurve with
    | none => exact Option.some_ne_none _
    | some c =>
      show (if c.length = 2 then some (makeDistortionCurve fx.distortionAmount)
        else some c) ≠ none
      by_cases hc : c.length = 2
      · rw [if_pos hc]; exact Option.some_ne_none _
      · rw [if_neg hc]; exact Option.some_ne_none _

theorem C3_distortion_curve_witness :
    (0:ℚ) < 10 ∧
    (updateFx initEngine (FxState.mk FilterType.lowpass 1000 1 10 0 0 0)).distortionCurve =
      some (makeDistortionCurve 10) ∧
    (updateFx initEngine (FxState.mk FilterType.lowpass 1000 1 0 0 0 0)).distortionCurve = none :=
  ⟨by norm_num,
   (C3_distortion_curve initEngine (FxState.mk FilterType.lowpass 1000 1 10 0 0 0)).1
     (by norm_num),
   (C3_distortion_curve initEngine (FxState.mk FilterType.lowpass 1000 1 0 0 0 0)).2.1 rfl⟩

set_option maxRecDepth 8192 in
/-- C3's original sentence fails on the code: a second `updateFx` call
with `distortionAmount = 50`, arriving while the curve built from amount
`10` is installed, leaves the amount-10 curve in place (the code only
builds a curve when none is installed), whereas the claim requires the
curve built from the call's own amount. -/
theorem C3_counterexample :
    (updateFx (updateFx initEngine (FxState.mk FilterType.lowpass 1000 1 10 0 0 0))
        (FxState.mk FilterType.lowpass 1000 1 50 0 0 0)).distortionCurve =
      some (makeDistortionCurve 10) ∧
    makeDistortionCurve 10 ≠ makeDistortionCurve 50 := by
  constructor
  · have h1 : (updateFx initEngine
        (FxState.mk FilterType.lowpass 1000 1 10 0 0 0)).distortionCurve =
        some (makeDistortionCurve 10) := by
      show (if (0:ℚ) < 10 then _ else none) = _
      rw [if_pos (by norm_num : (0:ℚ) < 10)]
      rfl
    have hlen : (makeDistortionCurve 10).length = 256 := rfl
    show (if (0:ℚ) < 50 then
        (match (updateFx initEngine
            (FxState.mk FilterType.lowpass 1000 1 10 0 0 0)).distortionCurve with
         | none => some (makeDistortionCurve 50)
         | some c => if c.length = 2 then some (makeDistortionCurve 50) else some c)
      else none) = some (makeDistortionCurve 10)
    rw [h1, if_pos (by norm_num : (0:ℚ) < 50)]
    show (if (makeDistortionCurve 10).length = 2 then some (makeDistortionCurve 50)
      else some (makeDistortionCurve 10)) = some (makeDistortionCurve 10)
    rw [if_neg (by rw [hlen]; norm_num)]
  · intro hEq
    have e10 : (makeDistortionCurve 10)[0]? =
        some ((3 + max 0 10) * (((0:ℕ):ℚ) * 2 / 256 - 1) * 20 * (jsPI / 180) /
          (jsPI + max 0 10 * |((0:ℕ):ℚ) * 2 / 256 - 1|)) := rfl
    have e50 : (makeDistortionCurve 50)[0]? =
        some ((3 + max 0 50) * (((0:ℕ):ℚ) * 2 / 256 - 1) * 20 * (jsPI / 180) /
          (jsPI + max 0 50 * |((0:ℕ):ℚ) * 2 / 256 - 1|)) := rfl
    have h0 := congrArg (fun l => l[0]?) hEq
    simp only [e10, e50, Option.some.injEq] at h0
    rw [show max (0:ℚ) 10 = 10 from by norm_num, show max (0:ℚ) 50 = 50 from by norm_num,
      show ((0:ℕ):ℚ) * 2 / 256 - 1 = -1 from by norm_num, abs_neg, abs_one] at h0
    rw [div_eq_div_iff (by norm_num [jsPI]) (by norm_num [jsPI])] at h0
    norm_num [jsPI] at h0

/-! ### C5 -/

/-- C5, amended: every numeric parameter setter clamps instead of
erroring — `setSourceVolume` to `[0,2]`, `setMasterVolume` to `[0,2]`,
`setCrossfader` to `[-1,1]`, and `updateFx` clamps filter frequency to
`[20,20000]`, resonance to `[0,20]`, delay time to `[0,4]`, delay
feedback to `[0,0.95]` and delay wet to `[0,1]` (all operations are
total functions of the state, so none raises an error) — but
`distortionAmount` is **not** clamped to `[0,100]`: a fresh curve is
built from the raw amount (the curve builder only clamps below at `0`),
so out-of-range amounts above `100` are applied as-is. -/
theorem C5_parameter_clamping (e : Engine) (id : ℕ) (v : ℚ) (fx : FxState) :
    ((mapGet (setSourceVolume e id v).sources id).map Channel.volume =
      (mapGet e.sources id).map (fun _ => min 2 (max 0 v))) ∧
    (setMasterVolume e v).masterVolume = max 0 (min 2 v) ∧
    (setCrossfader e v).crossfader = max (-1) (min 1 v) ∧
    (updateFx e fx).filterFreq = min 20000 (max 20 fx.filterFreq) ∧
    (updateFx e fx).filterQ = min 20 (max 0 fx.filterRes) ∧
    (updateFx e fx).delayTime = min 4 (max 0 fx.delayTime) ∧
    (updateFx e fx).delayFeedback = min (19/20) (max 0 fx.delayFeedback) ∧
    (updateFx e fx).delayWet = min 1 (max 0 fx.delayWet) ∧
    (e.distortionCurve = none → 0 < fx.distortionAmount →
      (updateFx e fx).distortionCurve = some (makeDistortionCurve fx.distortionAmount)) := by
  refine ⟨?_, rfl, rfl, rfl, rfl, rfl, rfl, rfl, fun hc h => ?_⟩
  · cases hg : mapGet e.sources id with
    | none => simp [setSourceVolume, hg]
    | some s =>
      simp [setSourceVolume, hg, updateMix_sources, mapGet_map, mapGet_mapSet_self,
        mixChannel_volume]
  · show (if 0 < fx.distortionAmount then _ else none) = _
    rw [if_pos h, hc]

theorem C5_parameter_clamping_witness :
    (applyOps [Op.addSource 1 SrcType.mic] initEngine).distortionCurve = none ∧
    (0:ℚ) < 150 ∧
    ((mapGet (setSourceVolume (applyOps [Op.addSource 1 SrcType.mic] initEngine) 1
        5).sources 1).map Channel.volume =
      (mapGet (applyOps [Op.addSource 1 SrcType.mic] initEngine).sources 1).map
        (fun _ => min 2 (max 0 5)) ∧
     (setMasterVolume (applyOps [Op.addSource 1 SrcType.mic] initEngine) 5).masterVolume =
       max 0 (min 2 5) ∧
     (setCrossfader (applyOps [Op.addSource 1 SrcType.mic] initEngine) 5).crossfader =
       max (-1) (min 1 5) ∧
     (updateFx (applyOps [Op.addSource 1 SrcType.mic] initEngine)
        (FxState.mk FilterType.lowpass 99999 25 150 9 2 3)).filterFreq =
       min 20000 (max 20 99999) ∧
     (updateFx (applyOps [Op.addSource 1 SrcType.mic] initEngine)
        (FxState.mk FilterType.lowpass 99999 25 150 9 2 3)).filterQ = min 20 (max 0 25) ∧
     (updateFx (applyOps [Op.addSource 1 SrcType.mic] initEngine)
        (FxState.mk FilterType.lowpass 99999 25 150 9 2 3)).delayTime = min 4 (max 0 9) ∧
     (updateFx (applyOps [Op.addSource 1 SrcType.mic] initEngine)
        (FxState.mk FilterType.lowpass 99999 25 150 9 2 3)).delayFeedback =
       min (19/20) (max 0 2) ∧
     (updateFx (applyOps [Op.addSource 1 SrcType.mic] initEngine)
        (FxState.mk FilterType.lowpass 99999 25 150 9 2 3)).delayWet = min 1 (max 0 3) ∧
     ((applyOps [Op.addSource 1 SrcType.mic] initEngine).distortionCurve = none →
       (0:ℚ) < 150 →
       (updateFx (applyOps [Op.addSource 1 SrcType.mic] initEngine)
          (FxState.mk FilterType.lowpass 99999 25 150 9 2 3)).distortionCurve =
         some (makeDistortionCurve 150))) :=
  ⟨rfl, by norm_num,
   C5_parameter_clamping (applyOps [Op.addSource 1 SrcType.mic] initEngine) 1 5
     (FxState.mk FilterType.lowpass 99999 25 150 9 2 3)⟩

set_option maxRecDepth 8192 in
/-- C5's original sentence fails on the code for `distortionAmount`: an
input of `150` (documented range `[0,100]`) is applied as `150` — the
installed curve is the one built from `150`, not from the nearest valid
value `100` (`makeDistortionCurve` only clamps below, at `0`). -/
theorem C5_counterexample :
    (updateFx initEngine (FxState.mk FilterType.lowpass 1000 1 150 0 0 0)).distortionCurve =
      some (makeDistortionCurve 150) ∧
    makeDistortionCurve 150 ≠ makeDistortionCurve 100 := by
  constructor
  · show (if (0:ℚ) < 150 then _ else none) = _
    rw [if_pos (by norm_num : (0:ℚ) < 150)]
    rfl
  · intro hEq
    have e150 : (makeDistortionCurve 150)[0]? =
        some ((3 + max 0 150) * (((0:ℕ):ℚ) * 2 / 256 - 1) * 20 * (jsPI / 180) /
          (jsPI + max 0 150 * |((0:ℕ):ℚ) * 2 / 256 - 1|)) := rfl
    have e100 : (makeDistortionCurve 100)[0]? =
        some ((3 + max 0 100) * (((0:ℕ):ℚ) * 2 / 256 - 1) * 20 * (jsPI / 180) /
          (jsPI + max 0 100 * |((0:ℕ):ℚ) * 2 / 256 - 1|)) := rfl
    have h0 := congrArg (fun l => l[0]?) hEq
    simp only [e150, e100, Option.some.injEq] at h0
    rw [show max (0:ℚ) 150 = 150 from by norm_num, show max (0:ℚ) 100 = 100 from by norm_num,
      show ((0:ℕ):ℚ) * 2 / 256 - 1 = -1 from by norm_num, abs_neg, abs_one] at h0
    rw [div_eq_div_iff (by norm_num [jsPI]) (by norm_num [jsPI])] at h0
    norm_num [jsPI] at h0

/-! ### C9 -/

/-- C9: every per-channel operation called with an id absent from the
registry — `removeSource`, `setSourceVolume`, `setMute`, `setSolo`,
`setMonitoring`, `setCrossfade` — returns the engine state completely
unchanged (registry, every channel, routing, bus gains and the telemetry
record included); all are total functions, so no error is raised. -/
theorem C9_absent_id_noop (e : Engine) (id : ℕ) (h : mapGet e.sources id = none)
    (v : ℚ) (b : Bool) (g : CrossGroup) :
    removeSource e id = e ∧ setSourceVolume e id v = e ∧ setMute e id b = e ∧
    setSolo e id b = e ∧ setMonitoring e id b = e ∧ setCrossfade e id g = e := by
  refine ⟨?_, ?_, ?_, ?_, ?_, ?_⟩
  · rw [removeSource, removeSourceRun, h]
  · rw [setSourceVolume, h]
  · rw [setMute, h]
  · rw [setSolo, h]
  · rw [setMonitoring, h]
  · rw [setCrossfade, h]

theorem C9_absent_id_noop_witness :
    mapGet initEngine.sources 5 = none ∧
    (removeSource initEngine 5 = initEngine ∧ setSourceVolume initEngine 5 1 = initEngine ∧
     setMute initEngine 5 true = initEngine ∧ setSolo initEngine 5 true = initEngine ∧
     setMonitoring initEngine 5 true = initEngine ∧
     setCrossfade initEngine 5 CrossGroup.A = initEngine) :=
  ⟨rfl, C9_absent_id_noop initEngine 5 rfl 1 true CrossGroup.A⟩

/-! ### C4 -/

/-- C4 evaluated at the failing input: on a present channel whose
gain-node disconnect throws, `removeSourceRun` still removes the
registry entry, but — because the stream-stop statement sits in the same
`try` block as the disconnects — the remaining disconnects are skipped
and the stream is **not** stopped, contradicting the claim (and the
spec's teardown requirements).  On the fault-free path everything is
disconnected, the stream is stopped and the entry removed. -/
theorem C4_teardown_eval :
    ((removeSourceRun (applyOps [Op.addSource 1 SrcType.mic] initEngine) 1
        (fun st => st == TeardownStep.gainDisc)).2.streamStopped = false ∧
     (removeSourceRun (applyOps [Op.addSource 1 SrcType.mic] initEngine) 1
        (fun st => st == TeardownStep.gainDisc)).2.sourceDisconnected = false ∧
     (removeSourceRun (applyOps [Op.addSource 1 SrcType.mic] initEngine) 1
        (fun st => st == TeardownStep.gainDisc)).2.removedFromRegistry = true ∧
     mapGet (removeSourceRun (applyOps [Op.addSource 1 SrcType.mic] initEngine) 1
        (fun st => st == TeardownStep.gainDisc)).1.sources 1 = none) ∧
    (removeSourceRun (applyOps [Op.addSource 1 SrcType.mic] initEngine) 1
        (fun _ => false)).2 = TeardownResult.mk true true true true true := by
  have hsrc : (applyOps [Op.addSource 1 SrcType.mic] initEngine).sources =
      [(1, Channel.mk (4/5) false false false true SrcType.mic CrossGroup.C
        (some Bus.master) (4/5) 0)] := by
    norm_num [applyOps, applyOp, addSource, initEngine, initVisualData, removeSource,
      removeSourceRun, mapGet, mapSet, updateMix, updateMixEv, mixChannel, snapGain,
      compGain, busFor]
    all_goals decide
  refine ⟨⟨?_, ?_, ?_, ?_⟩, ?_⟩ <;>
    simp [removeSourceRun, hsrc, mapGet, mapDelete, mapSet]

/-! ### C7 -/

theorem band_value_bounds (l : List ℕ) (bins : ℕ) (hl : ∀ x ∈ l, x ≤ 255)
    (hlen : l.length ≤ bins) :
    0 ≤ ((l.sum : ℚ) / (max 1 (bins:ℚ)) * (1/255)) ∧
      ((l.sum : ℚ) / (max 1 (bins:ℚ)) * (1/255)) ≤ 1 := by
  have hM : (0:ℚ) < max 1 (bins:ℚ) := lt_of_lt_of_le one_pos (le_max_left _ _)
  constructor
  · positivity
  · have hs : l.sum ≤ bins * 255 := by
      refine le_trans (List.sum_le_card_nsmul l 255 hl) ?_
      simpa [smul_eq_mul] using Nat.mul_le_mul_right 255 hlen
    have heq : (l.sum : ℚ) / (max 1 (bins:ℚ)) * (1/255) =
        (l.sum : ℚ) / (max 1 (bins:ℚ) * 255) := by ring
    rw [heq, div_le_one (by positivity)]
    calc (l.sum : ℚ) ≤ ((bins * 255 : ℕ) : ℚ) := by exact_mod_cast hs
    _ ≤ max 1 (bins:ℚ) * 255 := by
        push_cast
        have : (bins : ℚ) ≤ max 1 (bins:ℚ) := le_max_right _ _
        nlinarith

/-- C7: for every spectrum of length `L ≥ 1` (with byte magnitudes, i.e.
every bin at most 255), the band split partitions the bins exactly —
`bassBins + midBins + highBins = L` with the three index ranges
concatenating back to the whole spectrum, so no bin is dropped or
counted twice — each band value lies in `[0,1]`, and each nonempty
band's value is the mean of its bins divided by 255 (the high band is
always nonempty when `L ≥ 1`). -/
theorem C7_band_split (data : List ℕ) (h1 : 1 ≤ data.length)
    (hle : ∀ x ∈ data, x ≤ 255) :
    (data.length * 6 / 100) + (data.length * 35 / 100) +
      (data.length - data.length * 6 / 100 - data.length * 35 / 100) = data.length ∧
    data.take (data.length * 6 / 100) ++
      ((data.drop (data.length * 6 / 100)).take (data.length * 35 / 100) ++
        data.drop (data.length * 6 / 100 + data.length * 35 / 100)) = data ∧
    (0 ≤ (updateBandEnergy data).bass ∧ (updateBandEnergy data).bass ≤ 1) ∧
    (0 ≤ (updateBandEnergy data).mid ∧ (updateBandEnergy data).mid ≤ 1) ∧
    (0 ≤ (updateBandEnergy data).high ∧ (updateBandEnergy data).high ≤ 1) ∧
    (1 ≤ data.length * 6 / 100 →
      (updateBandEnergy data).bass =
        ((data.take (data.length * 6 / 100)).sum : ℚ) /
          ((data.length * 6 / 100 : ℕ) : ℚ) * (1/255)) ∧
    (1 ≤ data.length * 35 / 100 →
      (updateBandEnergy data).mid =
        (((data.drop (data.length * 6 / 100)).take (data.length * 35 / 100)).sum : ℚ) /
          ((data.length * 35 / 100 : ℕ) : ℚ) * (1/255)) ∧
    (updateBandEnergy data).high =
      ((data.drop (data.length * 6 / 100 + data.length * 35 / 100)).sum : ℚ) /
        ((data.length - data.length * 6 / 100 - data.length * 35 / 100 : ℕ) : ℚ) * (1/255) := by
  have hbm : data.length * 6 / 100 + data.length * 35 / 100 ≤ data.length := by omega
  have hh1 : 1 ≤ data.length - data.length * 6 / 100 - data.length * 35 / 100 := by omega
  have hub : updateBandEnergy data = SpectralBand.mk
      (((data.take (data.length * 6 / 100)).sum : ℚ) /
        (max 1 ((data.length * 6 / 100 : ℕ) : ℚ)) * (1/255))
      ((((data.drop (data.length * 6 / 100)).take (data.length * 35 / 100)).sum : ℚ) /
        (max 1 ((data.length * 35 / 100 : ℕ) : ℚ)) * (1/255))
      (((data.drop (data.length * 6 / 100 + data.length * 35 / 100)).sum : ℚ) /
        (max 1 ((data.length - data.length * 6 / 100 - data.length * 35 / 100 : ℕ) : ℚ)) *
        (1/255)) := by
    simp only [updateBandEnergy]
    rw [if_neg (by omega)]
  have hpart : data.take (data.length * 6 / 100) ++
      ((data.drop (data.length * 6 / 100)).take (data.length * 35 / 100) ++
        data.drop (data.length * 6 / 100 + data.length * 35 / 100)) = data := by
    have hdd : data.drop (data.length * 6 / 100 + data.length * 35 / 100) =
        (data.drop (data.length * 6 / 100)).drop (data.length * 35 / 100) := by
      rw [List.drop_drop, Nat.add_comm]
    rw [hdd, List.take_append_drop, List.take_append_drop]
  refine ⟨by omega, hpart, ?_, ?_, ?_, fun hb => ?_, fun hm => ?_, ?_⟩
  · rw [hub]
    exact band_value_bounds _ _ (fun x hx => hle x (List.take_subset _ _ hx))
      (by rw [List.length_take]; omega)
  · rw [hub]
    exact band_value_bounds _ _
      (fun x hx => hle x (List.drop_subset _ _ (List.take_subset _ _ hx)))
      (by rw [List.length_take]; omega)
  · rw [hub]
    exact band_value_bounds _ _ (fun x hx => hle x (List.drop_subset _ _ hx))
      (by rw [List.length_drop]; omega)
  · rw [hub]
    show _ / (max 1 ((data.length * 6 / 100 : ℕ) : ℚ)) * (1/255) = _
    rw [max_eq_right (by exact_mod_cast hb)]
  · rw [hub]
    show _ / (max 1 ((data.length * 35 / 100 : ℕ) : ℚ)) * (1/255) = _
    rw [max_eq_right (by exact_mod_cast hm)]
  · rw [hub]
    show _ / (max 1 ((data.length - data.length * 6 / 100 -
        data.length * 35 / 100 : ℕ) : ℚ)) * (1/255) = _
    rw [max_eq_right (by exact_mod_cast hh1)]

theorem C7_band_split_witness :
    1 ≤ ([100, 200, 50] : List ℕ).length ∧ (∀ x ∈ ([100, 200, 50] : List ℕ), x ≤ 255) ∧
    (([100, 200, 50] : List ℕ).length * 6 / 100) + (([100, 200, 50] : List ℕ).length * 35 / 100) +
      (([100, 200, 50] : List ℕ).length - ([100, 200, 50] : List ℕ).length * 6 / 100 -
        ([100, 200, 50] : List ℕ).length * 35 / 100) = ([100, 200, 50] : List ℕ).length ∧
    (0 ≤ (updateBandEnergy [100, 200, 50]).bass ∧ (updateBandEnergy [100, 200, 50]).bass ≤ 1) ∧
    (0 ≤ (updateBandEnergy [100, 200, 50]).high ∧ (updateBandEnergy [100, 200, 50]).high ≤ 1) := by
  have h := C7_band_split [100, 200, 50] (by decide) (by decide)
  exact ⟨by decide, by decide, h.1, h.2.2.1, h.2.2.2.2.1⟩

/-! ### Metrics lemmas (towards C6 and C10) -/

theorem processMetrics_sources (env : MetricsEnv) (e : Engine) :
    (processMetrics env e).sources = e.sources := by
  rw [processMetrics]
  split <;> rfl

theorem processMetrics_peakLevels (env : MetricsEnv) (e : Engine)
    (h : env.ctxState = CtxState.running) :
    (processMetrics env e).visualData.peakLevels =
      peakPass env e.sources e.visualData.peakLevels := by
  rw [processMetrics, if_neg (show ¬env.ctxState ≠ CtxState.running from fun hne => hne h)]

theorem iterate_processMetrics_sources (env : MetricsEnv) (e : Engine) (n : ℕ) :
    ((processMetrics env)^[n] e).sources = e.sources := by
  induction n with
  | zero => rfl
  | succ k ih => rw [Function.iterate_succ_apply', processMetrics_sources, ih]

theorem peakPass_cons (env : MetricsEnv) (p : ℕ × Channel) (t : List (ℕ × Channel))
    (old : ℕ → ℝ) :
    peakPass env (p :: t) old =
      peakPass env t (if p.2.active then
        Function.update old p.1
          (max (rawPeak (env.timeDomain p.1)) (old p.1 * (9/10)))
        else old) := rfl

theorem peakPass_not_mem (env : MetricsEnv) (l : List (ℕ × Channel)) (old : ℕ → ℝ)
    (id : ℕ) (h : id ∉ mapKeys l) : peakPass env l old id = old id := by
  induction l generalizing old with
  | nil => rfl
  | cons p t ih =>
    have hid : id ∉ mapKeys t := fun hmem => h (List.mem_cons_of_mem _ hmem)
    have hne : p.1 ≠ id := fun he => h (he ▸ List.mem_cons_self _ _)
    rw [peakPass_cons]
    refine (ih _ hid).trans ?_
    by_cases hact : p.2.active <;> simp [hact, Function.update_noteq (Ne.symm hne)]

theorem peakPass_mem (env : MetricsEnv) (l : List (ℕ × Channel)) (old : ℕ → ℝ)
    (id : ℕ) (ch : Channel) (hnd : (mapKeys l).Nodup) (hmem : (id, ch) ∈ l)
    (hact : ch.active = true) :
    peakPass env l old id = max (rawPeak (env.timeDomain id)) (old id * (9/10)) := by
  induction l generalizing old with
  | nil => simp at hmem
  | cons p t ih =>
    rw [mapKeys_cons, List.nodup_cons] at hnd
    rw [peakPass_cons]
    rcases List.mem_cons.mp hmem with he | ht
    · have h1 : id ∉ mapKeys t := by
        have := hnd.1
        rw [← he] at this
        exact this
      have hstep : (if p.2.active then
          Function.update old p.1
            (max (rawPeak (env.timeDomain p.1)) (old p.1 * (9/10))) else old) =
          Function.update old id (max (rawPeak (env.timeDomain id)) (old id * (9/10))) := by
        rw [← he]
        simp [hact]
      rw [hstep, peakPass_not_mem env t _ id h1, Function.update_same]
    · have hne : p.1 ≠ id := fun hp => hnd.1 (hp ▸ mem_mapKeys_of_mem ht)
      refine (ih _ hnd.2 ht).trans ?_
      by_cases hact' : p.2.active <;>
        simp [hact', Function.update_noteq (Ne.symm hne)]

theorem rawPeak_silent (buf : ℕ → ℕ) (h : rmsAcc buf = 0) : rawPeak buf = 0 := by
  rw [rawPeak, h]
  push_cast
  rw [zero_mul, Real.sqrt_zero, zero_mul]

theorem rmsAcc_silent (buf : ℕ → ℕ) (h : ∀ i, buf i = 128) : rmsAcc buf = 0 := by
  have key : ∀ (l : List ℕ) (a : ℚ), (l.foldl (fun acc j =>
      let v1 := sampleVal (buf (4*j))
      let v2 := sampleVal (buf (4*j + 1))
      let v3 := sampleVal (buf (4*j + 2))
      let v4 := sampleVal (buf (4*j + 3))
      acc + (v1*v1 + v2*v2 + v3*v3 + v4*v4)) a) = a := by
    intro l
    induction l with
    | nil => intro a; rfl
    | cons x t ih =>
      intro a
      rw [List.foldl_cons]
      have hb : (let v1 := sampleVal (buf (4*x))
          let v2 := sampleVal (buf (4*x + 1))
          let v3 := sampleVal (buf (4*x + 2))
          let v4 := sampleVal (buf (4*x + 3))
          a + (v1*v1 + v2*v2 + v3*v3 + v4*v4)) = a := by
        simp only [h]
        rw [show sampleVal 128 = 0 from by norm_num [sampleVal]]
        ring
      rw [hb]
      exact ih a
  exact key (List.range 64) 0

/-! ### C6 -/

/-- C6: on every metrics tick with the context running, each active
channel's reported peak equals `max(rawPeak, previousPeak * 0.90)`,
where `rawPeak` is the windowed RMS of its 256-sample time-domain
buffer (`sqrt(acc / 256)`) scaled by `5.0`; consequently, when the raw
input is silent (RMS accumulator `0`) the reported peak decays exactly
geometrically — after `n` consecutive ticks it equals the prior value
times `0.90^n` — and is non-increasing from tick to tick. -/
theorem C6_peak_decay (env : MetricsEnv) (e : Engine) (id : ℕ) (ch : Channel)
    (hrun : env.ctxState = CtxState.running)
    (hnd : (mapKeys e.sources).Nodup)
    (hmem : (id, ch) ∈ e.sources) (hact : ch.active = true) :
    (processMetrics env e).visualData.peakLevels id =
      max (rawPeak (env.timeDomain id)) (e.visualData.peakLevels id * (9/10)) ∧
    (rmsAcc (env.timeDomain id) = 0 → 0 ≤ e.visualData.peakLevels id →
      ∀ n : ℕ,
        ((processMetrics env)^[n] e).visualData.peakLevels id =
          ((9:ℝ)/10)^n * e.visualData.peakLevels id ∧
        ((processMetrics env)^[n+1] e).visualData.peakLevels id ≤
          ((processMetrics env)^[n] e).visualData.peakLevels id) := by
  have htick : ∀ E : Engine, E.sources = e.sources →
      (processMetrics env E).visualData.peakLevels id =
        max (rawPeak (env.timeDomain id)) (E.visualData.peakLevels id * (9/10)) := by
    intro E hE
    rw [processMetrics_peakLevels env E hrun, hE]
    exact peakPass_mem env e.sources _ id ch hnd hmem hact
  refine ⟨htick e rfl, fun hsil hpos => ?_⟩
  have hraw : rawPeak (env.timeDomain id) = 0 := rawPeak_silent _ hsil
  have hgeo : ∀ n : ℕ, ((processMetrics env)^[n] e).visualData.peakLevels id =
      ((9:ℝ)/10)^n * e.visualData.peakLevels id := by
    intro n
    induction n with
    | zero => simp
    | succ k ihk =>
      rw [Function.iterate_succ_apply',
        htick _ (iterate_processMetrics_sources env e k), ihk, hraw,
        max_eq_right (mul_nonneg
          (mul_nonneg (pow_nonneg (by norm_num) k) hpos) (by norm_num))]
      ring
  intro n
  refine ⟨hgeo n, ?_⟩
  rw [hgeo n, hgeo (n+1)]
  have h1 : ((9:ℝ)/10)^(n+1) ≤ ((9:ℝ)/10)^n :=
    pow_le_pow_of_le_one (by norm_num) (by norm_num) (Nat.le_succ n)
  exact mul_le_mul_of_nonneg_right h1 hpos

theorem C6_peak_decay_witness :
    (MetricsEnv.mk CtxState.running [] [] [] (fun _ _ => 128)).ctxState = CtxState.running ∧
    ((1:ℕ), Channel.mk (4/5) false false false true SrcType.mic CrossGroup.C
      (some Bus.master) (4/5) 0) ∈ (applyOps [Op.addSource 1 SrcType.mic] initEngine).sources ∧
    rmsAcc ((MetricsEnv.mk CtxState.running [] [] [] (fun _ _ => 128)).timeDomain 1) = 0 ∧
    ((processMetrics (MetricsEnv.mk CtxState.running [] [] [] (fun _ _ => 128)))^[2]
        (applyOps [Op.addSource 1 SrcType.mic] initEngine)).visualData.peakLevels 1 =
      ((9:ℝ)/10)^2 *
        (applyOps [Op.addSource 1 SrcType.mic] initEngine).visualData.peakLevels 1 := by
  have hsrc : (applyOps [Op.addSource 1 SrcType.mic] initEngine).sources =
      [(1, Channel.mk (4/5) false false false true SrcType.mic CrossGroup.C
        (some Bus.master) (4/5) 0)] := by
    norm_num [applyOps, applyOp, addSource, initEngine, initVisualData, removeSource,
      removeSourceRun, mapGet, mapSet, updateMix, updateMixEv, mixChannel, snapGain,
      compGain, busFor]
    all_goals decide
  have hmem : ((1:ℕ), Channel.mk (4/5) false false false true SrcType.mic CrossGroup.C
      (some Bus.master) (4/5) 0) ∈ (applyOps [Op.addSource 1 SrcType.mic] initEngine).sources := by
    rw [hsrc]
    exact List.mem_cons_self _ _
  have hnd : (mapKeys (applyOps [Op.addSource 1 SrcType.mic] initEngine).sources).Nodup := by
    rw [hsrc]
    decide
  have hsil : rmsAcc ((MetricsEnv.mk CtxState.running [] [] []
      (fun _ _ => 128)).timeDomain 1) = 0 :=
    rmsAcc_silent _ (fun _ => rfl)
  have hpos : (0:ℝ) ≤ (applyOps [Op.addSource 1 SrcType.mic] initEngine).visualData.peakLevels 1 :=
    le_of_eq (show (0:ℝ) =
      (applyOps [Op.addSource 1 SrcType.mic] initEngine).visualData.peakLevels 1 from rfl)
  exact ⟨rfl, hmem, hsil,
    ((C6_peak_decay (MetricsEnv.mk CtxState.running [] [] [] (fun _ _ => 128))
      (applyOps [Op.addSource 1 SrcType.mic] initEngine) 1 _ rfl hnd hmem rfl).2 hsil hpos 2).1⟩

/-! ### C10 -/

/-- C10: whenever the audio context is not in the `'running'` state,
`processMetrics` returns immediately and the shared telemetry record is
completely unchanged — band energies, hue, raw spectrum, group bands and
every per-channel peak level (so peaks do not decay while suspended). -/
theorem C10_suspended_noop (env : MetricsEnv) (e : Engine)
    (h : env.ctxState ≠ CtxState.running) :
    processMetrics env e = e ∧
    (processMetrics env e).visualData = e.visualData ∧
    (∀ i, (processMetrics env e).visualData.peakLevels i = e.visualData.peakLevels i) := by
  have he : processMetrics env e = e := by rw [processMetrics, if_pos h]
  exact ⟨he, by rw [he], fun i => by rw [he]⟩

theorem C10_suspended_noop_witness :
    (MetricsEnv.mk CtxState.suspended [] [] [] (fun _ _ => 0)).ctxState ≠ CtxState.running ∧
    processMetrics (MetricsEnv.mk CtxState.suspended [] [] [] (fun _ _ => 0)) initEngine =
      initEngine :=
  ⟨by decide, (C10_suspended_noop _ initEngine (by decide)).1⟩
